import Mathlib

/-!
Verification of the easy-voice-memos visualization core.

Shallow embedding of:
* `src/model/viewport_state.py`   — `ViewportState` (zoom/pan state, coordinate maps,
  resolution tiers); Python floats are modelled as rationals `ℚ`.
* `src/model/spectrogram_data.py` — `SpectrogramWorker.run` control flow (signals,
  cancellation checkpoints, cache write) and the `SpectrogramData` cache
  (`_save_to_cache` / `_load_from_cache`).
* `src/controller/playback_controller.py` — the result-delivery handlers
  (`_on_spectrogram_loaded` / `_on_spectrogram_failed`) and the queued delivery of
  cross-thread signals.
* `src/utils/audio_utils.py`      — `compute_stft` (via `scipy.signal.stft` with its
  documented defaults: periodic Hann window, `boundary='zeros'`, `padded=True`,
  scaling by `1/win.sum()`), `filter_frequency_range`, `compute_stft_slice`;
  real-valued quantities are modelled in `ℝ`, index/frequency bookkeeping in `ℚ`/`ℕ`.
-/

namespace EasyVoiceMemos

/-! ### ViewportState (src/model/viewport_state.py)

Python floats are modelled as exact rationals.  `np.clip` is
`min (max x lo) hi` for `lo ≤ hi`, which is the only way it is used here. -/

/-- Embedding of `np.clip(x, lo, hi)` for `lo ≤ hi`. -/
def clipQ (x lo hi : ℚ) : ℚ := min (max x lo) hi

/-- The mutable state of `ViewportState`: `_zoom_level` and `_pan_offset`. -/
structure Viewport where
  zoom : ℚ
  pan : ℚ
  deriving DecidableEq, Repr

/-- Embedding of `ViewportState.__init__`: zoom 1.0, pan 0.0. -/
def initViewport : Viewport := ⟨1, 0⟩

/-- Embedding of `ViewportState.visible_duration`: `min(1.0, 1.0 / self._zoom_level)`. -/
def visibleDuration (s : Viewport) : ℚ := min 1 (1 / s.zoom)

/-- Embedding of `ViewportState.set_zoom(zoom, center_time)`. -/
def setZoom (s : Viewport) (zoom centerTime : ℚ) : Viewport :=
  let newZoom := clipQ zoom 1 50
  if newZoom = s.zoom then s
  else
    let newVisibleDuration := 1 / newZoom
    let centerViewportPos :=
      if visibleDuration s > 0 then
        clipQ ((centerTime - s.pan) / visibleDuration s) 0 1
      else (1 : ℚ) / 2
    let newPanOffset := centerTime - centerViewportPos * newVisibleDuration
    { zoom := newZoom
      pan := clipQ newPanOffset 0 (max 0 (1 - newVisibleDuration)) }

/-- Embedding of `ViewportState.set_pan(offset)`. -/
def setPan (s : Viewport) (offset : ℚ) : Viewport :=
  let maxOffset := max 0 (1 - visibleDuration s)
  let newOffset := clipQ offset 0 maxOffset
  if newOffset = s.pan then s else { s with pan := newOffset }

/-- Embedding of `ViewportState.reset()`. -/
def resetViewport (s : Viewport) : Viewport :=
  if s.zoom = 1 ∧ s.pan = 0 then s else ⟨1, 0⟩

/-- Embedding of `ViewportState._get_resolution_tier(zoom)`. -/
def resolutionTier (zoom : ℚ) : ℕ :=
  if zoom < 2 then 0
  else if zoom < 5 then 1
  else if zoom < 10 then 2
  else 3

/-- Embedding of `ViewportState.screen_to_time(pixel_x, widget_width)`. -/
def screenToTime (s : Viewport) (pixelX widgetWidth : ℚ) : ℚ :=
  if widgetWidth ≤ 0 then 0
  else
    let viewportFraction := pixelX / widgetWidth
    let normalizedTime := s.pan + viewportFraction * visibleDuration s
    clipQ normalizedTime 0 1

/-- Embedding of `ViewportState.time_to_screen(normalized_time, widget_width)`. -/
def timeToScreen (s : Viewport) (normalizedTime widgetWidth : ℚ) : ℚ :=
  if visibleDuration s ≤ 0 then 0
  else
    let viewportFraction := (normalizedTime - s.pan) / visibleDuration s
    viewportFraction * widgetWidth

/-- A call into the public mutating API of `ViewportState`. -/
inductive VOp
  | zoomOp (zoom centerTime : ℚ)
  | panOp (offset : ℚ)
  | resetOp
  deriving DecidableEq, Repr

/-- One API call applied to a state. -/
def applyVOp (s : Viewport) : VOp → Viewport
  | .zoomOp z c => setZoom s z c
  | .panOp o => setPan s o
  | .resetOp => resetViewport s

/-- State after a finite sequence of API calls starting from `__init__`. -/
def runVOps (ops : List VOp) : Viewport := ops.foldl applyVOp initViewport

/-- The viewport invariant of the spec. -/
def ViewportInv (s : Viewport) : Prop :=
  1 ≤ s.zoom ∧ s.zoom ≤ 50 ∧ 0 ≤ s.pan ∧ s.pan ≤ max 0 (1 - visibleDuration s)

lemma clipQ_le (x lo hi : ℚ) : clipQ x lo hi ≤ hi := min_le_right _ _

lemma le_clipQ (x lo hi : ℚ) (h : lo ≤ hi) : lo ≤ clipQ x lo hi :=
  le_min (le_max_right x lo) h

lemma clipQ_eq_of_mem (x lo hi : ℚ) (h1 : lo ≤ x) (h2 : x ≤ hi) : clipQ x lo hi = x := by
  unfold clipQ
  rw [max_eq_left h1, min_eq_left h2]

/-- Fact: `visibleDuration` is positive on any state with `zoom ≥ 1`. -/
lemma visibleDuration_pos {s : Viewport} (h : 1 ≤ s.zoom) : 0 < visibleDuration s := by
  unfold visibleDuration
  have hz : (0:ℚ) < s.zoom := lt_of_lt_of_le one_pos h
  exact lt_min one_pos (by positivity)

/-- Fact: `visibleDuration s = 1 / s.zoom` when `zoom ≥ 1`. -/
lemma visibleDuration_eq {s : Viewport} (h : 1 ≤ s.zoom) :
    visibleDuration s = 1 / s.zoom := by
  unfold visibleDuration
  have hz : (0:ℚ) < s.zoom := lt_of_lt_of_le one_pos h
  have : 1 / s.zoom ≤ 1 := by
    rw [div_le_one hz]; exact h
  exact min_eq_right this

lemma viewportInv_init : ViewportInv initViewport := by
  refine ⟨le_refl 1, by norm_num [initViewport], ?_, ?_⟩ <;>
    simp [initViewport, visibleDuration]

/-- Introduction of `ViewportInv` for a literal state, with the visible duration spelled out. -/
lemma viewportInv_mk {z p : ℚ} (h1 : 1 ≤ z) (h2 : z ≤ 50) (h3 : 0 ≤ p)
    (h4 : p ≤ max 0 (1 - min 1 (1/z))) : ViewportInv ⟨z, p⟩ :=
  ⟨h1, h2, h3, h4⟩

lemma viewportInv_applyVOp {s : Viewport} (h : ViewportInv s) (op : VOp) :
    ViewportInv (applyVOp s op) := by
  obtain ⟨h1, h2, h3, h4⟩ := h
  cases op with
  | zoomOp z c =>
    show ViewportInv (setZoom s z c)
    have key : ∀ q : ℚ, ViewportInv
        ⟨clipQ z 1 50, clipQ q 0 (max 0 (1 - 1 / clipQ z 1 50))⟩ := by
      intro q
      have hlo : (1:ℚ) ≤ clipQ z 1 50 := le_clipQ z 1 50 (by norm_num)
      refine viewportInv_mk hlo (clipQ_le z 1 50) (le_clipQ _ 0 _ (le_max_left 0 _)) ?_
      have : min 1 (1 / clipQ z 1 50) = 1 / clipQ z 1 50 := by
        have hz0 : (0:ℚ) < clipQ z 1 50 := lt_of_lt_of_le one_pos hlo
        refine min_eq_right ?_
        rw [div_le_one hz0]; exact hlo
      rw [this]
      exact clipQ_le _ 0 _
    simp only [setZoom]
    split_ifs with hz hpos
    · exact ⟨h1, h2, h3, h4⟩
    · exact key _
    · exact key _
  | panOp o =>
    show ViewportInv (setPan s o)
    simp only [setPan]
    split_ifs with hp
    · exact ⟨h1, h2, h3, h4⟩
    · exact ⟨h1, h2, le_clipQ _ 0 _ (le_max_left 0 _), clipQ_le _ 0 _⟩
  | resetOp =>
    show ViewportInv (resetViewport s)
    simp only [resetViewport]
    split_ifs with hr
    · exact ⟨h1, h2, h3, h4⟩
    · exact viewportInv_init

lemma viewportInv_runVOps (ops : List VOp) : ViewportInv (runVOps ops) := by
  unfold runVOps
  induction ops using List.reverseRecOn with
  | nil => exact viewportInv_init
  | append_singleton l op ih =>
    rw [List.foldl_append, List.foldl_cons, List.foldl_nil]
    exact viewportInv_applyVOp ih op

/-- The invariant forces `pan + visibleDuration ≤ 1`. -/
lemma pan_add_vd_le_one {s : Viewport} (h : ViewportInv s) :
    s.pan + visibleDuration s ≤ 1 := by
  obtain ⟨h1, _, _, h4⟩ := h
  have hvd0 : 0 < visibleDuration s := visibleDuration_pos h1
  have hvd1 : visibleDuration s ≤ 1 := min_le_left _ _
  have : max 0 (1 - visibleDuration s) = 1 - visibleDuration s :=
    max_eq_right (by linarith)
  rw [this] at h4
  linarith

/-- Claim C2 — starting from the initial state `(zoom, pan) = (1, 0)`, every finite
sequence of `set_zoom` / `set_pan` / `reset` calls with arbitrary rational arguments
leaves the state with `zoom_level ∈ [1, 50]` and
`0 ≤ pan_offset ≤ max 0 (1 - visible_duration)`, where
`visible_duration = min 1 (1/zoom_level)`; consequently
`pan_offset + visible_duration ≤ 1`. -/
theorem viewport_invariant_all_sequences (ops : List VOp) :
    1 ≤ (runVOps ops).zoom ∧ (runVOps ops).zoom ≤ 50 ∧
    0 ≤ (runVOps ops).pan ∧
    (runVOps ops).pan ≤ max 0 (1 - visibleDuration (runVOps ops)) ∧
    (runVOps ops).pan + visibleDuration (runVOps ops) ≤ 1 := by
  have h := viewportInv_runVOps ops
  obtain ⟨h1, h2, h3, h4⟩ := h
  exact ⟨h1, h2, h3, h4, pan_add_vd_le_one (viewportInv_runVOps ops)⟩

/-- Claim C6 — the resolution tier is the step function of zoom with thresholds at
2.0, 5.0, 10.0: it is monotone in zoom, and `1.9 ↦ 0`, `2.0 ↦ 1`, `9.99 ↦ 2`,
`10.0 ↦ 3`. -/
theorem resolutionTier_step_function :
    (∀ z1 z2 : ℚ, z1 ≤ z2 → resolutionTier z1 ≤ resolutionTier z2) ∧
    resolutionTier (19/10) = 0 ∧ resolutionTier 2 = 1 ∧
    resolutionTier (999/100) = 2 ∧ resolutionTier 10 = 3 := by
  refine ⟨?_, by unfold resolutionTier; norm_num, by unfold resolutionTier; norm_num,
    by unfold resolutionTier; norm_num, by unfold resolutionTier; norm_num⟩
  intro z1 z2 hle
  unfold resolutionTier
  split_ifs <;> first | rfl | omega | linarith

/-- Witness for `resolutionTier_step_function` at `z1 = 3`, `z2 = 7`. -/
theorem resolutionTier_step_function_witness :
    resolutionTier 3 ≤ resolutionTier 7 :=
  resolutionTier_step_function.1 3 7 (by decide)

/-- Claim C7 — on every reachable viewport state, for every normalized time
`t ∈ [0,1]` and widget width `W > 0`,
`screen_to_time (time_to_screen t W) W = t` (exactly, in the rational model). -/
theorem screenToTime_timeToScreen_roundtrip (ops : List VOp) (t W : ℚ)
    (ht0 : 0 ≤ t) (ht1 : t ≤ 1) (hW : 0 < W) :
    screenToTime (runVOps ops) (timeToScreen (runVOps ops) t W) W = t := by
  set s := runVOps ops with hs
  have hinv := viewportInv_runVOps ops
  have hvd : 0 < visibleDuration s := visibleDuration_pos hinv.1
  have hWne : W ≠ 0 := ne_of_gt hW
  have hvdne : visibleDuration s ≠ 0 := ne_of_gt hvd
  simp only [timeToScreen, screenToTime]
  rw [if_neg (not_le.mpr hvd), if_neg (not_le.mpr hW)]
  have harg : s.pan + (t - s.pan) / visibleDuration s * W / W * visibleDuration s = t := by
    field_simp
    ring
  rw [harg]
  exact clipQ_eq_of_mem t 0 1 ht0 ht1

/-- Witness for `screenToTime_timeToScreen_roundtrip`:
after `set_zoom(4, 0)`, time `t = 1` survives the round trip at width 100. -/
theorem screenToTime_timeToScreen_roundtrip_witness :
    screenToTime (runVOps [VOp.zoomOp 4 0])
      (timeToScreen (runVOps [VOp.zoomOp 4 0]) 1 100) 100 = 1 :=
  screenToTime_timeToScreen_roundtrip [VOp.zoomOp 4 0] 1 100
    (by decide) (by decide) (by decide)

/-- Claim C10 — `screen_to_time` is total: for every state and pixel coordinate,
a non-positive widget width returns exactly 0 (the guard `widget_width <= 0`
fires before any division). -/
theorem screenToTime_nonpositive_width (s : Viewport) (pixelX W : ℚ)
    (hW : W ≤ 0) : screenToTime s pixelX W = 0 := by
  unfold screenToTime
  rw [if_pos hW]

/-- Witness for `screenToTime_nonpositive_width` at width 0. -/
theorem screenToTime_nonpositive_width_witness :
    screenToTime initViewport 37 0 = 0 :=
  screenToTime_nonpositive_width initViewport 37 0 (by decide)

/-! ### SpectrogramData cache (src/model/spectrogram_data.py)

`_save_to_cache` pickles a dict with the spectrogram, the frequency bins, the
source file's mtime and the four transform parameters; `_load_from_cache`
validates all of them and treats every failure as a miss.  Array payloads are
modelled as rational matrices, mtimes as rationals. -/

/-- The pickled record written by `_save_to_cache`. -/
structure CacheData where
  spectrogram : List (List ℚ)
  frequency_bins : List ℚ
  file_mtime : ℚ
  n_fft : ℕ
  hop_length : ℕ
  freq_min : ℚ
  freq_max : ℚ
  deriving DecidableEq, Repr

/-- The on-disk cache file: its own mtime, and its content
(`none` models a file `pickle.load` cannot parse — corrupt or unreadable,
which raises inside the `try` and is caught). -/
structure CacheFile where
  mtime : ℚ
  content : Option CacheData
  deriving DecidableEq, Repr

/-- The file-system state `_load_from_cache` consults: the source audio file's
current mtime, and the cache file (which may be absent). -/
structure SpectrogramFS where
  source_mtime : ℚ
  cache : Option CacheFile
  deriving DecidableEq, Repr

/-- Embedding of `SpectrogramData._load_from_cache(n_fft, hop_length, freq_min, freq_max)`:
returns the success flag together with the loaded
`(_spectrogram, _frequency_bins)` on success.  Total: every failure mode
(missing file, stale mtime, unparsable pickle, any field mismatch) is a miss. -/
def loadFromCache (fs : SpectrogramFS) (n_fft hop_length : ℕ)
    (freq_min freq_max : ℚ) : Bool × Option (List (List ℚ) × List ℚ) :=
  match fs.cache with
  | none => (false, none)
  | some cf =>
    if cf.mtime < fs.source_mtime then (false, none)
    else
      match cf.content with
      | none => (false, none)
      | some d =>
        if d.file_mtime ≠ fs.source_mtime then (false, none)
        else if d.n_fft ≠ n_fft ∨ d.hop_length ≠ hop_length ∨
                d.freq_min ≠ freq_min ∨ d.freq_max ≠ freq_max then (false, none)
        else (true, some (d.spectrogram, d.frequency_bins))

/-- The success path of `SpectrogramData._save_to_cache(...)`: the pickled
record carries the source file's current mtime; `now` is the written cache
file's resulting mtime. -/
def saveToCache (fs : SpectrogramFS) (now : ℚ) (n_fft hop_length : ℕ)
    (freq_min freq_max : ℚ) (spectrogram : List (List ℚ))
    (frequency_bins : List ℚ) : SpectrogramFS :=
  { fs with
    cache := some
      { mtime := now
        content := some
          { spectrogram := spectrogram
            frequency_bins := frequency_bins
            file_mtime := fs.source_mtime
            n_fft := n_fft
            hop_length := hop_length
            freq_min := freq_min
            freq_max := freq_max } } }

/-- Claim C3 — cache correctness.  (a) After a successful store under key
`(source mtime, n_fft, hop_length, freq_min, freq_max)` (written at any time
`now` not older than the source), a load with the identical key returns `True`
with exactly the stored data.  (b) A load whose four parameters differ in any
one component returns a miss.  (c) If the source mtime has changed since the
store, the load is a miss.  (d) A missing cache file is a miss.  (e) An
unreadable/corrupt cache file is a miss.  `loadFromCache` is a total function,
so no error is ever raised to the caller. -/
theorem cache_store_load_correct :
    (∀ (fs : SpectrogramFS) (now : ℚ) (n h : ℕ) (fmin fmax : ℚ)
        (spec : List (List ℚ)) (bins : List ℚ),
      fs.source_mtime ≤ now →
      loadFromCache (saveToCache fs now n h fmin fmax spec bins) n h fmin fmax
        = (true, some (spec, bins))) ∧
    (∀ (fs : SpectrogramFS) (now : ℚ) (n h n' h' : ℕ) (fmin fmax fmin' fmax' : ℚ)
        (spec : List (List ℚ)) (bins : List ℚ),
      (n' ≠ n ∨ h' ≠ h ∨ fmin' ≠ fmin ∨ fmax' ≠ fmax) →
      loadFromCache (saveToCache fs now n h fmin fmax spec bins) n' h' fmin' fmax'
        = (false, none)) ∧
    (∀ (fs : SpectrogramFS) (now m' : ℚ) (n h : ℕ) (fmin fmax : ℚ)
        (spec : List (List ℚ)) (bins : List ℚ),
      m' ≠ fs.source_mtime →
      loadFromCache
        { source_mtime := m',
          cache := (saveToCache fs now n h fmin fmax spec bins).cache } n h fmin fmax
        = (false, none)) ∧
    (∀ (fs : SpectrogramFS) (n h : ℕ) (fmin fmax : ℚ),
      fs.cache = none → loadFromCache fs n h fmin fmax = (false, none)) ∧
    (∀ (fs : SpectrogramFS) (m : ℚ) (n h : ℕ) (fmin fmax : ℚ),
      fs.cache = some ⟨m, none⟩ → loadFromCache fs n h fmin fmax = (false, none)) := by
  refine ⟨?_, ?_, ?_, ?_, ?_⟩
  · intro fs now n h fmin fmax spec bins hnow
    simp [loadFromCache, saveToCache, not_lt.mpr hnow]
  · intro fs now n h n' h' fmin fmax fmin' fmax' spec bins hdiff
    simp only [loadFromCache, saveToCache]
    split_ifs with h1 h2 h3
    · rfl
    · rfl
    · rfl
    · exfalso
      rcases hdiff with hd | hd | hd | hd <;> exact h3 (by tauto)
  · intro fs now m' n h fmin fmax spec bins hm
    simp only [loadFromCache, saveToCache]
    split_ifs with h1 h2 h3
    · rfl
    · rfl
    · rfl
    · exact absurd (not_not.mp h2).symm hm
  · intro fs n h fmin fmax hc
    simp [loadFromCache, hc]
  · intro fs m n h fmin fmax hc
    simp only [loadFromCache, hc]
    split_ifs <;> rfl

/-- Witness for `cache_store_load_correct`: a concrete store/load round trip. -/
theorem cache_store_load_correct_witness :
    loadFromCache
      (saveToCache ⟨5, none⟩ 6 1024 512 80 8000 [[1, 2]] [0, 3]) 1024 512 80 8000
      = (true, some ([[1, 2]], [0, 3])) :=
  cache_store_load_correct.1 ⟨5, none⟩ 6 1024 512 80 8000 [[1, 2]] [0, 3] (by decide)

/-! ### SpectrogramWorker.run (src/model/spectrogram_data.py)

The worker's control flow: which Qt signals it emits and whether it writes the
cache, as a function of the cache-lookup outcome, the extraction outcome, and
the point at which `self._cancelled` becomes set.  The numeric kernel
(`compute_stft` + `filter_frequency_range`) enters only as an opaque function
of the extracted samples. -/

/-- A Qt signal emitted by `SpectrogramWorker`. -/
inductive WorkerSignal
  | progressUpdated (msg : String)
  | computationFinished (spectrogram : List (List ℚ)) (freq_bins : List ℚ)
  | computationFailed (msg : String)
  deriving DecidableEq, Repr

/-- The value of `self._cancelled` at the `i`-th read (reads are numbered 1-4 in
program order inside `run`).  `cancelPoint = some j` means `cancel()` set the
flag just before the `j`-th read, and the flag stays set; `j ≥ 5` means the
flag is set only after every read — e.g. a `cancel()` that arrives after the
final checkpoint while the worker is still finishing.  `none`: never set. -/
def cancelledAtRead (cancelPoint : Option ℕ) (i : ℕ) : Bool :=
  match cancelPoint with
  | none => false
  | some j => decide (j ≤ i)

/-- Embedding of `SpectrogramWorker.run`: returns the emitted signals in order, and whether
`_save_to_cache` ran.  Mirrors the source line by line: cache hit emits
`computation_finished` directly; reads 1 and 2 of `_cancelled` return silently;
the third read is the combined check
`if self._cancelled or audio_data is None or len(audio_data) == 0` whose branch
emits `computation_failed("Failed to extract audio")`; the fourth read returns
silently; otherwise the worker filters, writes the cache and emits the result. -/
def runWorker (cacheHit : Option (List (List ℚ) × List ℚ))
    (extracted : Option (List ℚ))
    (stft : List ℚ → List (List ℚ) × List ℚ)
    (cancelPoint : Option ℕ) : List WorkerSignal × Bool :=
  let ev0 := [WorkerSignal.progressUpdated "Loading cached spectrogram..."]
  match cacheHit with
  | some (spec, bins) => (ev0 ++ [WorkerSignal.computationFinished spec bins], false)
  | none =>
    if cancelledAtRead cancelPoint 1 then (ev0, false)
    else
      let ev1 := ev0 ++ [WorkerSignal.progressUpdated "Extracting audio data..."]
      if cancelledAtRead cancelPoint 2 then (ev1, false)
      else
        if cancelledAtRead cancelPoint 3 || extracted.isNone
            || (extracted.getD []).length == 0 then
          (ev1 ++ [WorkerSignal.computationFailed "Failed to extract audio"], false)
        else
          let ev2 := ev1 ++ [WorkerSignal.progressUpdated "Computing spectrogram..."]
          if cancelledAtRead cancelPoint 4 then (ev2, false)
          else
            let r := stft (extracted.getD [])
            (ev2 ++ [WorkerSignal.computationFinished r.1 r.2], true)

/-- The worker observed the cancellation flag at one of its inter-step
checkpoints: some read of `self._cancelled` that actually executes returns
`True`.  (On a cache hit no read executes; read 4 executes only when the
combined extraction check passed.) -/
def observesCancel (cacheHit : Option (List (List ℚ) × List ℚ))
    (extracted : Option (List ℚ)) (cancelPoint : Option ℕ) : Prop :=
  cacheHit = none ∧ ∃ j, cancelPoint = some j ∧
    (j ≤ 3 ∨ (j = 4 ∧ extracted ≠ none ∧ (extracted.getD []).length ≠ 0))

/-- Helper: under an observed cancellation the worker never emits
`computation_finished` and never writes the cache; `computation_failed` can
only be the post-extraction message, and only when the flag was observed at
the combined post-extraction check (`cancelPoint = some 3`). -/
lemma runWorker_observesCancel
    (cacheHit : Option (List (List ℚ) × List ℚ)) (extracted : Option (List ℚ))
    (stft : List ℚ → List (List ℚ) × List ℚ) (cancelPoint : Option ℕ)
    (hobs : observesCancel cacheHit extracted cancelPoint) :
    (runWorker cacheHit extracted stft cancelPoint).2 = false ∧
    (∀ spec bins, WorkerSignal.computationFinished spec bins ∉
      (runWorker cacheHit extracted stft cancelPoint).1) ∧
    (∀ msg, WorkerSignal.computationFailed msg ∈
        (runWorker cacheHit extracted stft cancelPoint).1 →
      msg = "Failed to extract audio" ∧ cancelPoint = some 3) := by
  obtain ⟨hch, j, hcp, hj⟩ := hobs
  subst hch hcp
  rcases hj with hj3 | ⟨hj4, hne, hlen⟩
  · interval_cases j <;>
      simp_all [runWorker, cancelledAtRead]
  · subst hj4
    obtain ⟨samples, rfl⟩ := Option.ne_none_iff_exists'.mp hne
    simp only [Option.getD_some] at hlen
    simp [runWorker, cancelledAtRead, hlen]

/-- Claim C1, counterexample — the claim as stated is false on the code: with no
cache hit, a successful extraction (`[1]`, nonempty), and the cancellation flag
set between the second and third checkpoints (`cancelPoint = some 3`), the
worker observes the flag at the post-extraction checkpoint and nevertheless
emits the result signal `computation_failed("Failed to extract audio")`. -/
theorem worker_cancel_emits_failed_counterexample :
    observesCancel none (some [1]) (some 3) ∧
    WorkerSignal.computationFailed "Failed to extract audio" ∈
      (runWorker none (some [1]) (fun _ => ([[0]], [0])) (some 3)).1 :=
  ⟨⟨rfl, 3, rfl, Or.inl (by decide)⟩, by decide⟩

/-- Claim C1, amended — once the worker observes the cancellation flag at one of
its checkpoints it performs no cache write and never emits
`computation_finished`; however, it is not signal-silent: when the observation
happens at the combined post-extraction checkpoint (`cancelPoint = some 3`) it
emits `computation_failed("Failed to extract audio")` regardless of the
extraction outcome, and that is the only result signal it can emit. -/
theorem worker_cancel_no_finish_no_cache_write
    (cacheHit : Option (List (List ℚ) × List ℚ)) (extracted : Option (List ℚ))
    (stft : List ℚ → List (List ℚ) × List ℚ) (cancelPoint : Option ℕ)
    (hobs : observesCancel cacheHit extracted cancelPoint) :
    (runWorker cacheHit extracted stft cancelPoint).2 = false ∧
    (∀ spec bins, WorkerSignal.computationFinished spec bins ∉
      (runWorker cacheHit extracted stft cancelPoint).1) ∧
    (∀ msg, WorkerSignal.computationFailed msg ∈
        (runWorker cacheHit extracted stft cancelPoint).1 →
      msg = "Failed to extract audio" ∧ cancelPoint = some 3) :=
  runWorker_observesCancel cacheHit extracted stft cancelPoint hobs

/-- Witness for `worker_cancel_no_finish_no_cache_write`: cancellation observed
at the second checkpoint. -/
theorem worker_cancel_no_finish_no_cache_write_witness :
    (runWorker none (some [1]) (fun _ => ([[0]], [0])) (some 2)).2 = false ∧
    (∀ spec bins, WorkerSignal.computationFinished spec bins ∉
      (runWorker none (some [1]) (fun _ => ([[0]], [0])) (some 2)).1) ∧
    (∀ msg, WorkerSignal.computationFailed msg ∈
        (runWorker none (some [1]) (fun _ => ([[0]], [0])) (some 2)).1 →
      msg = "Failed to extract audio" ∧ (some 2 : Option ℕ) = some 3) :=
  worker_cancel_no_finish_no_cache_write none (some [1]) (fun _ => ([[0]], [0]))
    (some 2) ⟨rfl, 2, rfl, Or.inl (by decide)⟩

/-! ### PlaybackController result delivery (src/controller/playback_controller.py)

Worker signals are emitted from the QThread and delivered to the controller's
thread as queued events: everything a worker emitted before terminating is
still in the queue and is processed only when the main thread re-enters the
event loop — i.e. after `_load_spectrogram_async` has already cancelled the old
worker, waited for it, and started the new one.  The handlers
`_on_spectrogram_loaded` / `_on_spectrogram_failed` receive only the signal's
payload: they do not consult which worker sent it. -/

/-- The spectrogram widget's observable state as driven by the controller:
payloads published via `set_spectrogram_data`, and the number of `clear()`
calls. -/
structure SpectrogramView where
  published : List (List (List ℚ) × List ℚ)
  cleared : ℕ
  deriving DecidableEq, Repr

/-- Delivery of one queued worker signal to the controller.
`computation_finished` runs `_on_spectrogram_loaded`, which publishes whenever
`spectrogram is not None and len(spectrogram) > 0` — with no check of which
worker the signal came from; `computation_failed` runs
`_on_spectrogram_failed`, which clears the widget; `progress_updated` only
prints. -/
def deliverSignal (v : SpectrogramView) : WorkerSignal → SpectrogramView
  | .computationFinished spec bins =>
    if 0 < spec.length then { v with published := v.published ++ [(spec, bins)] } else v
  | .computationFailed _ => { v with cleared := v.cleared + 1 }
  | .progressUpdated _ => v

/-- Processing a queue of worker signals in order. -/
def deliverAll (v : SpectrogramView) (evs : List WorkerSignal) : SpectrogramView :=
  evs.foldl deliverSignal v

/-- The empty widget state. -/
def initView : SpectrogramView := ⟨[], 0⟩

lemma deliverAll_append (v : SpectrogramView) (l1 l2 : List WorkerSignal) :
    deliverAll v (l1 ++ l2) = deliverAll (deliverAll v l1) l2 := by
  unfold deliverAll
  exact List.foldl_append ..

/-- Signals containing no `computation_finished` never publish. -/
lemma deliverAll_published_of_noFinished (v : SpectrogramView)
    (evs : List WorkerSignal)
    (h : ∀ spec bins, WorkerSignal.computationFinished spec bins ∉ evs) :
    (deliverAll v evs).published = v.published := by
  induction evs generalizing v with
  | nil => rfl
  | cons e rest ih =>
    have hrest : ∀ spec bins, WorkerSignal.computationFinished spec bins ∉ rest := by
      intro spec bins hmem
      exact h spec bins (List.mem_cons_of_mem e hmem)
    cases e with
    | computationFinished spec bins =>
      exact absurd (List.mem_cons_self _ _) (h spec bins)
    | computationFailed msg =>
      show (deliverAll _ rest).published = v.published
      exact ih _ hrest
    | progressUpdated msg =>
      show (deliverAll _ rest).published = v.published
      exact ih _ hrest

/-- The payloads a signal list publishes, independently of the widget state it
is delivered into. -/
def publishedOf : List WorkerSignal → List (List (List ℚ) × List ℚ)
  | [] => []
  | .computationFinished spec bins :: rest =>
    (if 0 < spec.length then [(spec, bins)] else []) ++ publishedOf rest
  | .computationFailed _ :: rest => publishedOf rest
  | .progressUpdated _ :: rest => publishedOf rest

lemma deliverAll_published (v : SpectrogramView) (evs : List WorkerSignal) :
    (deliverAll v evs).published = v.published ++ publishedOf evs := by
  induction evs generalizing v with
  | nil => simp [deliverAll, publishedOf]
  | cons e rest ih =>
    cases e with
    | computationFinished spec bins =>
      show (deliverAll (deliverSignal v _) rest).published = _
      by_cases hs : 0 < spec.length
      · simp only [deliverSignal, if_pos hs]
        rw [ih ⟨v.published ++ [(spec, bins)], v.cleared⟩]
        simp [publishedOf, hs]
      · simp only [deliverSignal, if_neg hs]
        rw [ih v]
        simp [publishedOf, hs]
    | computationFailed msg =>
      show (deliverAll ⟨v.published, v.cleared + 1⟩ rest).published = _
      rw [ih ⟨v.published, v.cleared + 1⟩]
      rfl
    | progressUpdated msg =>
      show (deliverAll v rest).published = _
      rw [ih v]
      rfl

/-- A signal list with no `computation_finished` publishes nothing. -/
lemma publishedOf_eq_nil_of_noFinished (evs : List WorkerSignal)
    (h : ∀ spec bins, WorkerSignal.computationFinished spec bins ∉ evs) :
    publishedOf evs = [] := by
  induction evs with
  | nil => rfl
  | cons e rest ih =>
    have hrest : ∀ spec bins, WorkerSignal.computationFinished spec bins ∉ rest := by
      intro spec bins hmem
      exact h spec bins (List.mem_cons_of_mem e hmem)
    cases e with
    | computationFinished spec bins =>
      exact absurd (List.mem_cons_self _ _) (h spec bins)
    | computationFailed msg => exact ih hrest
    | progressUpdated msg => exact ih hrest

/-- Claim C4, counterexample — the claim as stated is false on the code.  Concrete
interleaving: worker A (no cache hit, extraction `[1]`, result `([[1]],[0])`)
passes its final cancellation checkpoint; the controller then requests
cancellation (`cancelPoint = some 5`: the flag is set after every read) and
blocks in `wait()`; A emits `computation_finished` — queued — and terminates;
the controller starts worker B (result `([[2]],[0])`), and only then does the
main thread re-enter the event loop and process both queued signals.
`_on_spectrogram_loaded` performs no worker-identity check, so A's superseded
result is published, followed by B's: the published sequence is
`[([[1]],[0]), ([[2]],[0])]`, not only B's result. -/
theorem controller_publishes_superseded_result_counterexample :
    (deliverAll initView
        ((runWorker none (some [1]) (fun _ => ([[1]], [0])) (some 5)).1 ++
         (runWorker none (some [1]) (fun _ => ([[2]], [0])) none).1)).published
      = [([[1]], [0]), ([[2]], [0])] ∧
    ¬ observesCancel none (some [1]) (some 5) ∧
    ([[1]], ([0] : List ℚ)) ≠ ([[2]], [0]) := by
  refine ⟨by decide, ?_, by decide⟩
  rintro ⟨-, j, hj, hcase⟩
  have h5 : (5 : ℕ) = j := by injection hj
  rcases hcase with h | ⟨h, -⟩ <;> omega

/-- Claim C4, amended — the controller performs no worker-identity check; the
only-B-published guarantee holds exactly when superseded worker A observes the
cancellation flag at one of its checkpoints before emitting: then A emits no
`computation_finished`, so after both workers' queued signals are processed the
published payloads are exactly those of B.  (If A's `computation_finished` was
already emitted when the flag was set, A's stale result is delivered —
see the counterexample.) -/
theorem controller_only_B_published_when_A_observes_cancel
    (cacheA : Option (List (List ℚ) × List ℚ)) (extrA : Option (List ℚ))
    (stftA : List ℚ → List (List ℚ) × List ℚ) (cpA : Option ℕ)
    (evsB : List WorkerSignal)
    (hobs : observesCancel cacheA extrA cpA) :
    (deliverAll initView ((runWorker cacheA extrA stftA cpA).1 ++ evsB)).published
      = (deliverAll initView evsB).published := by
  have hnf := (runWorker_observesCancel cacheA extrA stftA cpA hobs).2.1
  rw [deliverAll_append, deliverAll_published _ evsB, deliverAll_published initView evsB,
    deliverAll_published initView _, publishedOf_eq_nil_of_noFinished _ hnf]
  simp

/-- Witness for `controller_only_B_published_when_A_observes_cancel`: A is
cancelled at its first checkpoint, B completes normally. -/
theorem controller_only_B_published_witness :
    (deliverAll initView
        ((runWorker none (some [1]) (fun _ => ([[1]], [0])) (some 1)).1 ++
         (runWorker none (some [1]) (fun _ => ([[2]], [0])) none).1)).published
      = (deliverAll initView
          (runWorker none (some [1]) (fun _ => ([[2]], [0])) none).1).published :=
  controller_only_B_published_when_A_observes_cancel none (some [1])
    (fun _ => ([[1]], [0])) (some 1)
    (runWorker none (some [1]) (fun _ => ([[2]], [0])) none).1
    ⟨rfl, 1, rfl, Or.inl (by decide)⟩

/-! ### AudioUtils STFT numerics (src/utils/audio_utils.py)

`compute_stft` calls `scipy.signal.stft(audio, fs, window='hann', nperseg=n_fft,
noverlap=n_fft-hop_length)` with scipy's documented defaults: the periodic Hann
window, `boundary='zeros'` (the signal is extended by `nperseg//2` zeros at each
end), `padded=True` (zeros appended so the signal fits an integer number of
segments), `detrend=False`, one-sided rFFT output, and `scaling='spectrum'` with
`mode='stft'`, i.e. each segment's FFT is scaled by `1/win.sum()`.  It then maps
magnitudes through `20*log10(|X| + 1e-10)` and transposes to time-major.
`compute_stft_slice` windows the last `n_fft` samples, takes `np.fft.rfft`
directly (no `1/win.sum()` scaling, no boundary extension) and applies the same
dB map and the same frequency mask.  Real arithmetic is modelled exactly in `ℝ`;
the rational frequency grid `k·fs/n_fft` is modelled in `ℚ`. -/

noncomputable section

/-- The dB guard `1e-10` from `magnitude_db = 20*log10(magnitude + 1e-10)`. -/
def epsDb : ℝ := 1 / 10 ^ 10

/-- Embedding of `scipy.signal.get_window("hann", n)` — the periodic Hann window
`w[k] = 0.5 - 0.5·cos(2πk/n)`, also the default window of `scipy.signal.stft`. -/
def hannWindow (n k : ℕ) : ℝ := 1 / 2 - 1 / 2 * Real.cos (2 * Real.pi * k / n)

/-- Embedding of `win.sum()`, the normalization denominator of scipy's stft scaling. -/
def windowSum (n : ℕ) : ℝ := ∑ k in Finset.range n, hannWindow n k

/-- Magnitude of rFFT bin `f` of the length-`n` real vector `v`:
`|np.fft.rfft(v, n)[f]| = |Σ_i v[i]·exp(-2πi·f·i/n)|`. -/
def dftMagnitude (n : ℕ) (v : ℕ → ℝ) (f : ℕ) : ℝ :=
  Complex.abs (∑ i in Finset.range n,
    (v i : ℂ) * Complex.exp (-(2 * Real.pi * f * i / n : ℝ) * Complex.I))

/-- The input signal after scipy's `boundary='zeros'` extension (`nperseg//2`
zeros at each end) and `padded=True` end padding: zero outside the original
`L` samples, which sit shifted right by `nperseg/2`. -/
def paddedSignal (L : ℕ) (x : ℕ → ℝ) (nperseg : ℕ) : ℕ → ℝ :=
  fun i => if nperseg / 2 ≤ i ∧ i - nperseg / 2 < L then x (i - nperseg / 2) else 0

/-- Signal length after the `boundary='zeros'` extension. -/
def extendedLength (L nperseg : ℕ) : ℕ := L + 2 * (nperseg / 2)

/-- Zeros appended by `padded=True`:
`nadd = (-(len - nperseg) % nstep) % nperseg` with Python `%` semantics. -/
def paddingLength (L nperseg nstep : ℕ) : ℕ :=
  (((-((extendedLength L nperseg : ℤ) - nperseg)) % (nstep : ℤ)) % (nperseg : ℤ)).toNat

/-- Number of STFT time columns produced by `scipy.signal.stft` (hence rows of
`compute_stft`'s time-major output): `(len - nperseg)//nstep + 1` over the
extended and padded signal. -/
def numSegments (L nperseg nstep : ℕ) : ℕ :=
  (extendedLength L nperseg + paddingLength L nperseg nstep - nperseg) / nstep + 1

/-- Entry `[t][f]` of `compute_stft`'s time-major `magnitude_db`: segment `t`
starts at `t·hop_length` in the padded signal, is multiplied by the Hann
window, rFFT'd, scaled by `1/win.sum()`, and sent through
`20*log10(|X| + 1e-10)`. -/
def computeStftDb (L : ℕ) (x : ℕ → ℝ) (nfft hop : ℕ) (t f : ℕ) : ℝ :=
  20 * Real.logb 10
    (dftMagnitude nfft
        (fun i => paddedSignal L x nfft (t * hop + i) * hannWindow nfft i) f
      / windowSum nfft + epsDb)

/-- Frequency of rFFT bin `f`: `np.fft.rfftfreq(n_fft, 1/fs)[f] = f·fs/n_fft`,
also the `f` array returned by `scipy.signal.stft`, kept in exact rationals. -/
def rfftFreq (sampleRate : ℚ) (nfft : ℕ) (f : ℕ) : ℚ := f * sampleRate / nfft

/-- The boolean mask `(frequencies >= freq_min) & (frequencies <= freq_max)` of
`AudioUtils.filter_frequency_range`. -/
def freqMask (sampleRate : ℚ) (nfft : ℕ) (fmin fmax : ℚ) (f : ℕ) : Bool :=
  decide (fmin ≤ rfftFreq sampleRate nfft f ∧ rfftFreq sampleRate nfft f ≤ fmax)

/-- The rFFT bin indices kept by `filter_frequency_range`. -/
def filteredBins (sampleRate : ℚ) (nfft : ℕ) (fmin fmax : ℚ) : List ℕ :=
  (List.range (nfft / 2 + 1)).filter (freqMask sampleRate nfft fmin fmax)

/-- The `filtered_frequencies` returned by `filter_frequency_range`. -/
def filteredFreqs (sampleRate : ℚ) (nfft : ℕ) (fmin fmax : ℚ) : List ℚ :=
  (filteredBins sampleRate nfft fmin fmax).map (rfftFreq sampleRate nfft)

/-- The magnitude-dB `compute_stft_slice` assigns to rFFT bin `f`: the last
`n_fft` samples of the chunk, Hann-windowed, `np.fft.rfft` with no
normalization, then `20*log10(|X| + 1e-10)`. -/
def sliceDb (L : ℕ) (chunk : ℕ → ℝ) (nfft : ℕ) (f : ℕ) : ℝ :=
  20 * Real.logb 10
    (dftMagnitude nfft (fun i => chunk (L - nfft + i) * hannWindow nfft i) f + epsDb)

/-- The mask computed inside `compute_stft_slice` (its own
`(frequencies >= freq_min) & (frequencies <= freq_max)` over
`np.fft.rfftfreq(n_fft, 1/sample_rate)`). -/
def sliceMask (sampleRate : ℚ) (nfft : ℕ) (fmin fmax : ℚ) (f : ℕ) : Bool :=
  decide (fmin ≤ rfftFreq sampleRate nfft f ∧ rfftFreq sampleRate nfft f ≤ fmax)

/-- The rFFT bin indices `compute_stft_slice` keeps. -/
def sliceBins (sampleRate : ℚ) (nfft : ℕ) (fmin fmax : ℚ) : List ℕ :=
  (List.range (nfft / 2 + 1)).filter (sliceMask sampleRate nfft fmin fmax)

/-- Embedding of `AudioUtils.compute_stft_slice`: `None` when the chunk has fewer than
`n_fft` samples, otherwise the masked dB values. -/
def computeStftSlice (L : ℕ) (chunk : ℕ → ℝ) (sampleRate : ℚ) (nfft : ℕ)
    (fmin fmax : ℚ) : Option (List ℝ) :=
  if L < nfft then none
  else some ((sliceBins sampleRate nfft fmin fmax).map (sliceDb L chunk nfft))

end

/-- The dB floor: `20·log10(1e-10) = -200`, a finite real value. -/
lemma twenty_logb_epsDb : 20 * Real.logb 10 epsDb = -200 := by
  unfold epsDb
  rw [one_div, Real.logb_inv, Real.logb_pow]
  norm_num [Real.logb_self_eq_one]

/-- On an identically-zero signal every windowed segment is zero, so every
`magnitude_db` entry is exactly `20·log10(0 + 1e-10)`. -/
lemma computeStftDb_zero (L nfft hop t f : ℕ) (x : ℕ → ℝ) (hx : ∀ i, x i = 0) :
    computeStftDb L x nfft hop t f = 20 * Real.logb 10 epsDb := by
  unfold computeStftDb dftMagnitude paddedSignal
  simp [hx]

/-- Claim C8 — for every all-zero input signal of any length and every valid
`(n_fft, hop_length)`, each entry of `compute_stft`'s `magnitude_db` equals
`20·log10(1e-10)`, which is the finite real number `-200` (in particular
neither `-∞` nor `NaN`). -/
theorem compute_stft_zero_signal_db_floor (L nfft hop t f : ℕ) (x : ℕ → ℝ)
    (hx : ∀ i, x i = 0) (hn : 0 < nfft) (hh : 0 < hop) (hhn : hop ≤ nfft) :
    computeStftDb L x nfft hop t f = 20 * Real.logb 10 epsDb ∧
    computeStftDb L x nfft hop t f = -200 := by
  have h := computeStftDb_zero L nfft hop t f x hx
  exact ⟨h, h.trans twenty_logb_epsDb⟩

/-- Witness for `compute_stft_zero_signal_db_floor` at a zero signal of length
80 with `n_fft = 4`, `hop = 2`, entry `(0,0)`. -/
theorem compute_stft_zero_signal_db_floor_witness :
    computeStftDb 80 (fun _ => 0) 4 2 0 0 = -200 :=
  (compute_stft_zero_signal_db_floor 80 4 2 0 0 (fun _ => 0) (fun _ => rfl)
    (by decide) (by decide) (by decide)).2

/-- Bins kept by `filter_frequency_range` lie in the requested band. -/
lemma mem_filteredFreqs {sr : ℚ} {nfft : ℕ} {fmin fmax q : ℚ}
    (hq : q ∈ filteredFreqs sr nfft fmin fmax) : fmin ≤ q ∧ q ≤ fmax := by
  unfold filteredFreqs filteredBins at hq
  obtain ⟨f, hf, rfl⟩ := List.mem_map.mp hq
  have hmask := List.of_mem_filter hf
  simpa [freqMask] using hmask

/-- Claim C9, counterexample — on the end-to-end scenario (80000 samples, 16 kHz,
`n_fft = hop_length = 1024`) the code produces 80 time bins, not the claimed
`⌈(80000-1024)/1024⌉ + 1 = 79`: `scipy.signal.stft` first extends the signal by
`nperseg//2 = 512` zeros on each side (`boundary='zeros'`) and pads 896 more
(`padded=True`), giving `(81920-1024)/1024 + 1 = 80` segments. -/
theorem stft_time_bin_count_counterexample :
    numSegments 80000 1024 1024 = 80 ∧
    (80000 - 1024 + 1024 - 1) / 1024 + 1 = 79 ∧
    numSegments 80000 1024 1024 ≠ (80000 - 1024 + 1024 - 1) / 1024 + 1 := by
  refine ⟨by decide, by decide, by decide⟩

/-- Claim C9, amended — for the all-zero input of 80000 samples at 16 kHz with
`n_fft = 1024`, `hop_length = 1024`, filtered to `[80, 8000]` Hz:
`compute_stft` yields exactly 80 time bins (the scipy boundary extension and
end padding add two extra columns over the claimed 78–79); every
`magnitude_db` entry is exactly `-200` dB; and every returned frequency bin
lies within `[80, 8000]` Hz. -/
theorem stft_silent_5s_16khz_scenario :
    numSegments 80000 1024 1024 = 80 ∧
    (∀ t f, computeStftDb 80000 (fun _ => 0) 1024 1024 t f = -200) ∧
    (filteredFreqs 16000 1024 80 8000).all
      (fun q => decide ((80 : ℚ) ≤ q ∧ q ≤ 8000)) = true := by
  refine ⟨by decide, ?_, ?_⟩
  · intro t f
    exact (computeStftDb_zero 80000 1024 1024 t f _ (fun _ => rfl)).trans
      twenty_logb_epsDb
  · refine List.all_eq_true.mpr ?_
    intro q hq
    exact decide_eq_true (mem_filteredFreqs hq)

/-! ### Live slice vs batch path (claim C5) -/

/-- Fact: `dftMagnitude` only looks at the first `n` entries of the vector. -/
lemma dftMagnitude_congr (n : ℕ) (v w : ℕ → ℝ) (f : ℕ)
    (h : ∀ i < n, v i = w i) : dftMagnitude n v f = dftMagnitude n w f := by
  unfold dftMagnitude
  congr 1
  exact Finset.sum_congr rfl (fun i hi => by rw [h i (Finset.mem_range.mp hi)])

/-- At the DC bin the rFFT is the plain sum of the vector. -/
lemma dftMagnitude_zero_bin (n : ℕ) (v : ℕ → ℝ) :
    dftMagnitude n v 0 = |∑ i in Finset.range n, v i| := by
  unfold dftMagnitude
  have h : ∀ i ∈ Finset.range n,
      (v i : ℂ) * Complex.exp (-(2 * Real.pi * (0:ℕ) * i / n : ℝ) * Complex.I)
        = (v i : ℂ) := by
    intro i _
    simp
  rw [Finset.sum_congr rfl h, ← Complex.ofReal_sum]
  exact Complex.abs_ofReal _

/-- The periodic Hann window of length 4 is `[0, 1/2, 1, 1/2]`. -/
lemma hannWindow_four :
    hannWindow 4 0 = 0 ∧ hannWindow 4 1 = 1/2 ∧
    hannWindow 4 2 = 1 ∧ hannWindow 4 3 = 1/2 := by
  unfold hannWindow
  refine ⟨?_, ?_, ?_, ?_⟩
  · norm_num
  · have h : 2 * Real.pi * (1:ℕ) / (4:ℕ) = Real.pi / 2 := by push_cast; ring
    rw [h, Real.cos_pi_div_two]; norm_num
  · have h : 2 * Real.pi * (2:ℕ) / (4:ℕ) = Real.pi := by push_cast; ring
    rw [h, Real.cos_pi]; norm_num
  · have h : 2 * Real.pi * (3:ℕ) / (4:ℕ) = (2 * 1 + 1) * Real.pi / 2 := by
      push_cast; ring
    rw [h, Real.cos_eq_zero_iff.mpr ⟨1, by push_cast; ring⟩]; norm_num

lemma windowSum_four : windowSum 4 = 2 := by
  unfold windowSum
  rw [Finset.sum_range_succ, Finset.sum_range_succ, Finset.sum_range_succ,
    Finset.sum_range_one]
  obtain ⟨h0, h1, h2, h3⟩ := hannWindow_four
  rw [h0, h1, h2, h3]
  norm_num

/-- The dB guard is positive. -/
lemma epsDb_pos : (0:ℝ) < epsDb := by unfold epsDb; positivity

/-- The batch column for the all-ones chunk of length 4 at `hop = 2`, DC bin:
scipy's column 1 covers exactly the chunk, and its magnitude is scaled by
`1/win.sum() = 1/2`, giving `20·log10(1 + 1e-10)`. -/
lemma computeStftDb_ones_col :
    computeStftDb 4 (fun _ => (1:ℝ)) 4 2 1 0 = 20 * Real.logb 10 (1 + epsDb) := by
  unfold computeStftDb
  have hv : dftMagnitude 4
      (fun i => paddedSignal 4 (fun _ => (1:ℝ)) 4 (1 * 2 + i) * hannWindow 4 i) 0
      = dftMagnitude 4 (fun i => hannWindow 4 i) 0 := by
    refine dftMagnitude_congr 4 _ _ 0 ?_
    intro i hi
    unfold paddedSignal
    rw [if_pos]
    · norm_num
    · omega
  rw [hv, dftMagnitude_zero_bin]
  have hsum : ∑ i in Finset.range 4, hannWindow 4 i = 2 := windowSum_four
  rw [hsum, windowSum_four]
  norm_num

/-- The live slice for the same all-ones chunk, DC bin: no scaling, so
`20·log10(2 + 1e-10)`. -/
lemma sliceDb_ones :
    sliceDb 4 (fun _ => (1:ℝ)) 4 0 = 20 * Real.logb 10 (2 + epsDb) := by
  unfold sliceDb
  have hv : dftMagnitude 4 (fun i => (fun _ => (1:ℝ)) (4 - 4 + i) * hannWindow 4 i) 0
      = dftMagnitude 4 (fun i => hannWindow 4 i) 0 := by
    refine dftMagnitude_congr 4 _ _ 0 ?_
    intro i _
    norm_num
  rw [hv, dftMagnitude_zero_bin]
  have hsum : ∑ i in Finset.range 4, hannWindow 4 i = 2 := windowSum_four
  rw [hsum]
  norm_num

/-- Fact: `log10((2+ε)/(1+ε)) > 1/4`, because `(19/10)^4 > 10`. -/
lemma logb_ratio_gt_quarter :
    (1:ℝ)/4 < Real.logb 10 ((2 + epsDb) / (1 + epsDb)) := by
  have h1e : (0:ℝ) < 1 + epsDb := by linarith [epsDb_pos]
  have hr : (19:ℝ)/10 ≤ (2 + epsDb) / (1 + epsDb) := by
    rw [le_div_iff h1e]
    unfold epsDb
    norm_num
  have hq : (1:ℝ)/4 < Real.logb 10 ((19:ℝ)/10) := by
    refine (Real.lt_logb_iff_rpow_lt (by norm_num) (by norm_num)).mpr ?_
    have hp : ((10:ℝ) ^ ((1:ℝ)/4)) ^ (4:ℕ) = 10 := by
      rw [← Real.rpow_natCast ((10:ℝ) ^ ((1:ℝ)/4)) 4,
        ← Real.rpow_mul (by norm_num : (0:ℝ) ≤ 10)]
      norm_num
    have hlt : ((10:ℝ) ^ ((1:ℝ)/4)) ^ (4:ℕ) < ((19:ℝ)/10) ^ (4:ℕ) := by
      rw [hp]; norm_num
    exact lt_of_pow_lt_pow_left 4 (by norm_num) hlt
  exact hq.trans_le (Real.logb_le_logb_of_le (by norm_num) (by norm_num) hr)

/-- Claim C5, counterexample — the claim as stated is false on the code.  Concrete
input: the all-ones chunk of `n_fft = 4` samples, `sample_rate = 8`,
`hop_length = 2`, band `[0, 4]` Hz (so the DC bin is kept by both paths; both
masks agree).  The corresponding batch column (scipy's column 1, which covers
exactly the chunk after the `boundary='zeros'` shift) gives
`20·log10(2/win.sum() + 1e-10) = 20·log10(1 + 1e-10) ≈ 0` dB at the DC bin,
while the slice gives `20·log10(2 + 1e-10) ≈ 6.02` dB: scipy's stft scales
every segment by `1/win.sum()`, the slice path does not.  The gap exceeds 5 dB,
far beyond floating tolerance. -/
theorem slice_batch_db_mismatch_counterexample :
    (0 : ℕ) ∈ sliceBins 8 4 0 4 ∧ (0 : ℕ) ∈ filteredBins 8 4 0 4 ∧
    computeStftDb 4 (fun _ => (1:ℝ)) 4 2 1 0 ≠ sliceDb 4 (fun _ => (1:ℝ)) 4 0 ∧
    sliceDb 4 (fun _ => (1:ℝ)) 4 0 - computeStftDb 4 (fun _ => (1:ℝ)) 4 2 1 0 > 5 := by
  have h1e : (0:ℝ) < 1 + epsDb := by linarith [epsDb_pos]
  have h2e : (0:ℝ) < 2 + epsDb := by linarith [epsDb_pos]
  have hgap : sliceDb 4 (fun _ => (1:ℝ)) 4 0 -
      computeStftDb 4 (fun _ => (1:ℝ)) 4 2 1 0 > 5 := by
    rw [sliceDb_ones, computeStftDb_ones_col]
    have hdiv : Real.logb 10 (2 + epsDb) - Real.logb 10 (1 + epsDb)
        = Real.logb 10 ((2 + epsDb) / (1 + epsDb)) :=
      (Real.logb_div (ne_of_gt h2e) (ne_of_gt h1e)).symm
    have := logb_ratio_gt_quarter
    nlinarith [this, hdiv]
  refine ⟨?_, ?_, ?_, hgap⟩
  · refine List.mem_filter.mpr ⟨List.mem_range.mpr (by norm_num), ?_⟩
    unfold sliceMask rfftFreq
    norm_num
  · refine List.mem_filter.mpr ⟨List.mem_range.mpr (by norm_num), ?_⟩
    unfold freqMask rfftFreq
    norm_num
  · intro heq
    rw [heq] at hgap
    linarith

/-- Claim C5, amended — the slice path does apply the same Hann window, the same
dB formula `20·log10(|X| + 1e-10)` and the identical frequency mask as the
batch path, and on a chunk of exactly `n_fft` samples scipy's column
`(n_fft/2)/hop` windows exactly the chunk; but scipy's stft additionally
scales each segment's FFT by `1/win.sum()`, so the batch column entry is
`20·log10(m/win.sum() + ε)` where the slice entry is `20·log10(m + ε)` for the
same windowed-FFT magnitude `m` — the two agree only on silent chunks
(`m = 0`), not in general. -/
theorem slice_vs_batch_relation (nfft hop : ℕ) (chunk : ℕ → ℝ)
    (sr fmin fmax : ℚ) (hh : 0 < hop) (hdvd : hop ∣ nfft / 2) :
    sliceBins sr nfft fmin fmax = filteredBins sr nfft fmin fmax ∧
    nfft / 2 / hop < numSegments nfft nfft hop ∧
    (∀ f, computeStftDb nfft chunk nfft hop (nfft / 2 / hop) f
        = 20 * Real.logb 10
            (dftMagnitude nfft (fun i => chunk i * hannWindow nfft i) f
              / windowSum nfft + epsDb)) ∧
    (∀ f, sliceDb nfft chunk nfft f
        = 20 * Real.logb 10
            (dftMagnitude nfft (fun i => chunk i * hannWindow nfft i) f + epsDb)) := by
  have hoff : nfft / 2 / hop * hop = nfft / 2 := Nat.div_mul_cancel hdvd
  refine ⟨?_, ?_, ?_, ?_⟩
  · unfold sliceBins filteredBins sliceMask freqMask
    rfl
  · unfold numSegments extendedLength
    have hle : nfft / 2 ≤ nfft + 2 * (nfft / 2) + paddingLength nfft nfft hop - nfft := by
      omega
    exact Nat.lt_succ_of_le (Nat.div_le_div_right hle)
  · intro f
    unfold computeStftDb
    have hv : dftMagnitude nfft
        (fun i => paddedSignal nfft chunk nfft (nfft / 2 / hop * hop + i)
          * hannWindow nfft i) f
        = dftMagnitude nfft (fun i => chunk i * hannWindow nfft i) f := by
      refine dftMagnitude_congr nfft _ _ f ?_
      intro i hi
      unfold paddedSignal
      rw [hoff, if_pos (by omega)]
      have harg : nfft / 2 + i - nfft / 2 = i := by omega
      rw [harg]
    rw [hv]
  · intro f
    unfold sliceDb
    have hv : dftMagnitude nfft (fun i => chunk (nfft - nfft + i) * hannWindow nfft i) f
        = dftMagnitude nfft (fun i => chunk i * hannWindow nfft i) f := by
      refine dftMagnitude_congr nfft _ _ f ?_
      intro i _
      have harg : nfft - nfft + i = i := by omega
      rw [harg]
    rw [hv]

/-- Witness for `slice_vs_batch_relation` at `n_fft = 4`, `hop = 2`, the
all-ones chunk, DC bin. -/
theorem slice_vs_batch_relation_witness :
    sliceDb 4 (fun _ => (1:ℝ)) 4 0
      = 20 * Real.logb 10
          (dftMagnitude 4 (fun i => (1:ℝ) * hannWindow 4 i) 0 + epsDb) :=
  (slice_vs_batch_relation 4 2 (fun _ => (1:ℝ)) 8 0 4 (by decide) (by decide)).2.2.2 0

end EasyVoiceMemos
